import Mathlib

set_option maxRecDepth 8000

/-!
Verification development for the NetCAT cache profiling and tracking engine.

The definitions below are a shallow embedding of the Rust sources:
`src/online_tracker/pattern.rs`, `src/online_tracker/tracking.rs`,
`src/online_tracker/mod.rs`, `src/rpp/timing_classif.rs`, `src/rpp/params.rs`
and `src/rpp/mod.rs`.  External I/O (remote reads, packet sends, the random
number generator) is modelled by explicit environment streams; machine
integers are modelled by `Nat`/`Int` (the Rust code uses `usize`/`i64`/`i128`
values far below any overflow boundary in all the scenarios considered here,
and index-out-of-bounds panics are modelled explicitly where they matter).
-/

/-- `WINDOW_SIZE` constant of `src/online_tracker/pattern.rs`. -/
def WINDOW_SIZE : Nat := 10

/-- `SetCode(color, colored_set)` of `src/rpp/mod.rs`: identifies one cache set. -/
structure SetCode where
  color : Nat
  colored_set : Nat
deriving DecidableEq

instance : Inhabited SetCode := ⟨⟨0, 0⟩⟩

/-- `ProbeResult<T>` of `src/rpp/mod.rs`. -/
inductive ProbeResult (T : Type) where
  | Activated (data : T)
  | Stale (data : T)
deriving DecidableEq

/-- `ProbeResult::is_activated` of `src/rpp/mod.rs`. -/
def ProbeResult.is_activated {T : Type} : ProbeResult T → Bool
  | .Activated _ => true
  | .Stale _ => false

/-- `ProbeResult::is_stale` of `src/rpp/mod.rs`. -/
def ProbeResult.is_stale {T : Type} (p : ProbeResult T) : Bool := !p.is_activated

/-- `has_activation` of `src/rpp/mod.rs`. -/
def has_activation {T : Type} (probes : List (ProbeResult T)) : Bool :=
  probes.any ProbeResult.is_activated

/-- `Pattern::window` of `src/online_tracker/pattern.rs`: the k-th element of
`pattern.iter().cycle().skip(left).take(WINDOW_SIZE)` is `pattern[(left+k) % L]`
for a nonempty pattern, with `left = (pos - WINDOW_SIZE/2).rem_euclid(L)`.
An empty pattern panics in Rust (`rem_euclid(0)`); that case is modelled by
`[]` and all theorems about `window` assume a nonempty pattern. -/
def window (pattern : List SetCode) (pos : Nat) : List SetCode :=
  if pattern.length = 0 then []
  else
    let left : Nat :=
      (((pos : Int) - (WINDOW_SIZE : Int) / 2).emod (pattern.length : Int)).toNat
    (List.range WINDOW_SIZE).map (fun k => pattern.getD ((left + k) % pattern.length) default)

/-- `Pattern::next_pos` of `src/online_tracker/pattern.rs`. -/
def next_pos (pattern : List SetCode) (pos : Nat) : Nat :=
  (pos + 1) % pattern.length

/-- `Pattern::recover_next` of `src/online_tracker/pattern.rs`.  The Rust
slices `probe_res[WINDOW_SIZE/2..]` and `probe_res[..WINDOW_SIZE/2]` are
modelled by `List.drop`/`List.take` (identical for the 10-entry probe vectors
produced by `measure`); `Err` is modelled by `none` and `rem_euclid` by
`Int.emod`. -/
def recover_next {A : Type} (pattern : List SetCode) (pos : Nat)
    (probe_res : List (ProbeResult A)) : Option Nat :=
  match (probe_res.drop (WINDOW_SIZE / 2)).findIdx? (fun x => !x.is_stale) with
  | some idx => some ((pos + idx + 1) % pattern.length)
  | none =>
    match (probe_res.take (WINDOW_SIZE / 2)).findIdx? (fun x => !x.is_stale) with
    | some idx =>
      some ((((pos : Int) - (((WINDOW_SIZE / 2 : Nat) : Int) - (idx : Int)) + 1).emod
        (pattern.length : Int)).toNat)
    | none => none

/-- `SyncStatus` of `src/online_tracker/tracking.rs`. -/
inductive SyncStatus where
  | NoSync
  | Hit
  | Miss
deriving DecidableEq

/-- `TrackingContext` of `src/online_tracker/tracking.rs`. -/
structure TrackingContext where
  pos : Nat
  sync_status : SyncStatus
  should_send : Bool
  is_injected : Bool
  unsynced : Nat
deriving DecidableEq

/-- `TrackingContext::new` of `src/online_tracker/tracking.rs`. -/
def TrackingContext.new (init_pos : Nat) : TrackingContext :=
  { pos := init_pos, sync_status := .NoSync, should_send := false,
    is_injected := false, unsynced := 0 }

/-- `TrackingContext::should_inject` of `src/online_tracker/tracking.rs`. -/
def TrackingContext.should_inject (ctx : TrackingContext) : Bool :=
  decide (ctx.unsynced > 2) || ctx.should_send

/-- `TrackingContext::inject` of `src/online_tracker/tracking.rs`. -/
def TrackingContext.inject (ctx : TrackingContext) : TrackingContext :=
  { ctx with is_injected := true }

/-- `TrackingContext::sync_hit` of `src/online_tracker/tracking.rs`. -/
def TrackingContext.sync_hit (ctx : TrackingContext) (next : Nat) : TrackingContext :=
  { ctx with pos := next, unsynced := 0, should_send := false, sync_status := .Hit }

/-- `TrackingContext::sync_miss` of `src/online_tracker/tracking.rs`. -/
def TrackingContext.sync_miss (ctx : TrackingContext) (recovered_pos : Nat) : TrackingContext :=
  { ctx with pos := recovered_pos, should_send := true, sync_status := .Miss }

/-- `TrackingContext::unsynced_meaurement` of `src/online_tracker/tracking.rs`
(the misspelling is the source name). -/
def TrackingContext.unsynced_meaurement (ctx : TrackingContext) : TrackingContext :=
  { ctx with unsynced := ctx.unsynced + 1, should_send := false, sync_status := .NoSync }

/-- Errors a `measure` round can hit: the Rust index panic at
`probe_res[ctx.pos()]`, or the `recover_next` error propagated by `?`. -/
inductive StepError where
  | outOfBounds
  | unrecoverable
deriving DecidableEq

/-- Outcome classification of one `measure` round, lines 319-332 of
`src/online_tracker/mod.rs`: the tracker tests `probe_res[ctx.pos()]` (the
index panic for `ctx.pos() >= probe_res.len()` is modelled by
`.error .outOfBounds`), performs `sync_hit(next_pos)` when that entry is
activated and the context is injected, otherwise `sync_miss(recover_next)`
when injected, otherwise `unsynced_meaurement`. -/
def measureStep {A : Type} (pattern : List SetCode) (ctx : TrackingContext)
    (probe_res : List (ProbeResult A)) : Except StepError TrackingContext :=
  match probe_res.get? ctx.pos with
  | none => .error .outOfBounds
  | some pr =>
    if pr.is_activated && ctx.is_injected then
      .ok (ctx.sync_hit (next_pos pattern ctx.pos))
    else if ctx.is_injected then
      match recover_next pattern ctx.pos probe_res with
      | some p => .ok (ctx.sync_miss p)
      | none => .error .unrecoverable
    else
      .ok ctx.unsynced_meaurement

/-- One full round of the `measure` loop (lines 294-338 of
`src/online_tracker/mod.rs`).  The inner probe loop injects a packet iff
`ctx.should_inject()` held on entry, and exits with some probe vector
`probe_res`; that exit vector is supplied by the environment (it is
constrained by `roundValid` below). -/
def measureRound {A : Type} (pattern : List SetCode) (ctx : TrackingContext)
    (probe_res : List (ProbeResult A)) : Except StepError TrackingContext :=
  let ctx1 := if ctx.should_inject then ctx.inject else ctx
  measureStep pattern ctx1 probe_res

/-- Constraint on the probe vector with which the inner probe loop of a round
can exit: the loop breaks only when `has_activation(probe_res) || ctx.is_injected()`,
and injection happens exactly when `ctx.should_inject()` held. -/
def roundValid {A : Type} (ctx : TrackingContext)
    (probe_res : List (ProbeResult A)) : Bool :=
  ctx.should_inject || ctx.is_injected || has_activation probe_res

/-- Iterated `measure` rounds over an environment-supplied list of exit probe
vectors. -/
def measureRounds {A : Type} (pattern : List SetCode) :
    TrackingContext → List (List (ProbeResult A)) → Except StepError TrackingContext
  | ctx, [] => .ok ctx
  | ctx, pr :: rest =>
    match measureRound pattern ctx pr with
    | .ok ctx1 => measureRounds pattern ctx1 rest
    | .error e => .error e

/-- All rounds of a run satisfy the inner-loop exit constraint. -/
def roundsValid {A : Type} (pattern : List SetCode) :
    TrackingContext → List (List (ProbeResult A)) → Bool
  | _, [] => true
  | ctx, pr :: rest =>
    roundValid ctx pr &&
      (match measureRound pattern ctx pr with
       | .ok ctx1 => roundsValid pattern ctx1 rest
       | .error _ => true)

/-- The pattern `[SetCode(i,1) for i in 0..10]` of scenarios S2-S5. -/
def pattern10 : List SetCode := (List.range 10).map (fun i => ⟨i, 1⟩)

/-- Probe vector of scenario S3: all Stale except index 6. -/
def probesAfter : List (ProbeResult Unit) :=
  [.Stale (), .Stale (), .Stale (), .Stale (), .Stale (),
   .Stale (), .Activated (), .Stale (), .Stale (), .Stale ()]

/-- Probe vector of scenario S4: all Stale except index 1. -/
def probesBefore : List (ProbeResult Unit) :=
  [.Stale (), .Activated (), .Stale (), .Stale (), .Stale (),
   .Stale (), .Stale (), .Stale (), .Stale (), .Stale ()]

/-- All-Stale probe vector of scenario S5. -/
def probesStale : List (ProbeResult Unit) := List.replicate 10 (.Stale ())

/-- Claim C3 is false on the code: for the pattern `[SetCode(i,1) for i in 0..10]`
at position 2, `recover_next` does not return 3 when only index 6 is Activated,
and does not return 8 when only index 1 is Activated. -/
theorem recover_next_scenarios_cex :
    recover_next pattern10 2 probesAfter ≠ some 3 ∧
    recover_next pattern10 2 probesBefore ≠ some 8 := by
  decide

/-- Claim C3 (amended): for the pattern `[SetCode(i,1) for i in 0..10]` at
position 2, `recover_next` returns 4 (one past the activated pattern position 3)
when only index 6 is Activated, and 9 (one past position 8) when only index 1
is Activated.  The repository unit test `recover_test` expects 3 and 8 and
therefore fails against this code: the code adds 1 after locating the
activated position, as its inline comments state. -/
theorem recover_next_scenarios :
    recover_next pattern10 2 probesAfter = some 4 ∧
    recover_next pattern10 2 probesBefore = some 9 := by
  decide

/-- Claim C4: `recover_next` looks for the first Activated entry in
`probes[WINDOW_SIZE/2..]` and returns `(pos + j + 1) mod L`; otherwise for the
first Activated entry in `probes[..WINDOW_SIZE/2]` and returns
`(pos - (WINDOW_SIZE/2 - j) + 1) mod L` (Euclidean remainder); otherwise it
fails, and in particular an all-Stale input always yields an error. -/
theorem recover_next_spec {A : Type} (pattern : List SetCode) (pos : Nat)
    (probes : List (ProbeResult A)) (hlen : probes.length = 10)
    (hL : 0 < pattern.length) :
    (recover_next pattern pos probes =
      match (probes.drop (WINDOW_SIZE / 2)).findIdx? ProbeResult.is_activated with
      | some j => some ((pos + j + 1) % pattern.length)
      | none =>
        match (probes.take (WINDOW_SIZE / 2)).findIdx? ProbeResult.is_activated with
        | some j =>
          some ((((pos : Int) - (((WINDOW_SIZE / 2 : Nat) : Int) - (j : Int)) + 1).emod
            (pattern.length : Int)).toNat)
        | none => none) ∧
    ((∀ x ∈ probes, x.is_stale = true) → recover_next pattern pos probes = none) := by
  have hpred : (fun x : ProbeResult A => !x.is_stale) = ProbeResult.is_activated := by
    funext x
    simp [ProbeResult.is_stale]
  constructor
  · unfold recover_next
    rw [hpred]
  · intro hall
    have h1 : (probes.drop (WINDOW_SIZE / 2)).findIdx? (fun x => !x.is_stale) = none := by
      rw [List.findIdx?_eq_none_iff]
      intro x hx
      rw [hall x (List.mem_of_mem_drop hx)]
      rfl
    have h2 : (probes.take (WINDOW_SIZE / 2)).findIdx? (fun x => !x.is_stale) = none := by
      rw [List.findIdx?_eq_none_iff]
      intro x hx
      rw [hall x (List.mem_of_mem_take hx)]
      rfl
    unfold recover_next
    rw [h1, h2]

/-- Witness for C4: the all-Stale scenario S5 really yields an error. -/
theorem recover_next_spec_witness :
    probesStale.length = 10 ∧ 0 < pattern10.length ∧
    recover_next pattern10 2 probesStale = none :=
  ⟨by decide, by decide,
    (recover_next_spec pattern10 2 probesStale (by decide) (by decide)).2 (by decide)⟩

/-- Length-4 pattern used as a counterexample input for claim C1. -/
def pattern4 : List SetCode := [⟨0, 0⟩, ⟨0, 1⟩, ⟨0, 2⟩, ⟨0, 3⟩]

/-- Claim C1 is false on the code: starting `measure` at its initial position 1
on a 4-element pattern, three valid unsynced rounds followed by an injected
round whose probe vector is Activated exactly at index 6 end with
`sync_miss` (status Miss, recovered position 3), although the entry at index
`(len(win)/2)+1 = 6` is Activated and a packet was injected that round — the
code tests `probe_res[ctx.pos()]` (index 1 here), not index 6, so the claimed
`sync_hit(next_pos(1)) = 2` does not happen. -/
theorem measure_sync_hit_index_cex :
    roundsValid pattern4 (TrackingContext.new 1)
      [probesAfter, probesAfter, probesAfter, probesAfter] = true ∧
    (probesAfter.getD 6 (.Stale ())).is_activated = true ∧
    measureRounds pattern4 (TrackingContext.new 1)
      [probesAfter, probesAfter, probesAfter, probesAfter] =
      .ok { pos := 3, sync_status := .Miss, should_send := true,
            is_injected := true, unsynced := 3 } :=
  ⟨rfl, rfl, rfl⟩

/-- Helper: with the index in bounds, `measureStep` reduces to the branch
structure of the source. -/
theorem measureStep_of_lt {A : Type} (pattern : List SetCode) (ctx : TrackingContext)
    (probes : List (ProbeResult A)) (h : ctx.pos < probes.length) :
    measureStep pattern ctx probes =
      if (probes.get ⟨ctx.pos, h⟩).is_activated && ctx.is_injected then
        .ok (ctx.sync_hit (next_pos pattern ctx.pos))
      else if ctx.is_injected then
        match recover_next pattern ctx.pos probes with
        | some p => .ok (ctx.sync_miss p)
        | none => .error .unrecoverable
      else
        .ok ctx.unsynced_meaurement := by
  unfold measureStep
  rw [List.get?_eq_get h]

/-- Claim C1 (amended): after the inner probe loop exits, the tracker performs
`sync_hit(next_pos(pos))` if and only if the probe entry at index `ctx.pos`
(the current pattern position, not `(len(win)/2)+1`) is Activated and
`ctx.is_injected` holds (a flag that is set on the first injection and never
cleared); if `ctx.is_injected` holds but that entry is not Activated it
performs `sync_miss(recover_next(pos, probes))` (an error when recovery
fails); otherwise it performs `unsynced_meaurement`. -/
theorem measure_sync_condition {A : Type} (pattern : List SetCode)
    (ctx : TrackingContext) (probes : List (ProbeResult A))
    (h : ctx.pos < probes.length) :
    (measureStep pattern ctx probes = .ok (ctx.sync_hit (next_pos pattern ctx.pos)) ↔
      ((probes.get ⟨ctx.pos, h⟩).is_activated = true ∧ ctx.is_injected = true)) ∧
    (ctx.is_injected = true → (probes.get ⟨ctx.pos, h⟩).is_activated = false →
      measureStep pattern ctx probes =
        (match recover_next pattern ctx.pos probes with
         | some p => .ok (ctx.sync_miss p)
         | none => .error .unrecoverable)) ∧
    (ctx.is_injected = false →
      measureStep pattern ctx probes = .ok ctx.unsynced_meaurement) := by
  have hstep := measureStep_of_lt pattern ctx probes h
  rcases ha : (probes.get ⟨ctx.pos, h⟩).is_activated with _ | _ <;>
    rcases hi : ctx.is_injected with _ | _ <;>
      rw [ha, hi] at hstep <;>
        simp only [Bool.and_self, Bool.false_and, Bool.true_and, Bool.and_false,
          Bool.and_true, reduceIte] at hstep <;>
          rw [hstep]
  · simp [ha, hi, TrackingContext.unsynced_meaurement, TrackingContext.sync_hit]
  · rcases hrec : recover_next pattern ctx.pos probes with _ | p <;>
      simp [TrackingContext.sync_miss, TrackingContext.sync_hit]
  · simp [ha, hi, TrackingContext.unsynced_meaurement, TrackingContext.sync_hit]
  · simp [ha, hi, TrackingContext.sync_hit]

/-- Context reached after three unsynced rounds and an injection, used to
instantiate the amended C1. -/
def ctxMiss : TrackingContext :=
  { pos := 1, sync_status := .NoSync, should_send := false,
    is_injected := true, unsynced := 3 }

/-- Witness for the amended C1: at an injected context whose current-position
probe entry is Stale, the classification is `sync_miss` with the recovered
position. -/
theorem measure_sync_condition_witness :
    measureStep pattern4 ctxMiss probesAfter = .ok (ctxMiss.sync_miss 3) :=
  ((measure_sync_condition pattern4 ctxMiss probesAfter (by decide)).2.1
    rfl (by decide)).trans rfl

/-- All-Activated probe vector, used to drive reachability arguments. -/
def probesAllAct : List (ProbeResult Unit) := List.replicate WINDOW_SIZE (.Activated ())

theorem measureRounds_cons {A : Type} (pattern : List SetCode) (ctx : TrackingContext)
    (pr : List (ProbeResult A)) (rest : List (List (ProbeResult A))) :
    measureRounds pattern ctx (pr :: rest) =
      match measureRound pattern ctx pr with
      | .ok ctx1 => measureRounds pattern ctx1 rest
      | .error e => .error e := rfl

theorem roundsValid_cons {A : Type} (pattern : List SetCode) (ctx : TrackingContext)
    (pr : List (ProbeResult A)) (rest : List (List (ProbeResult A))) :
    roundsValid pattern ctx (pr :: rest) =
      (roundValid ctx pr &&
        match measureRound pattern ctx pr with
        | .ok ctx1 => roundsValid pattern ctx1 rest
        | .error _ => true) := rfl

theorem measureRounds_append {A : Type} (pattern : List SetCode) :
    ∀ (l1 l2 : List (List (ProbeResult A))) (ctx : TrackingContext),
    measureRounds pattern ctx (l1 ++ l2) =
      match measureRounds pattern ctx l1 with
      | .ok c => measureRounds pattern c l2
      | .error e => .error e := by
  intro l1
  induction l1 with
  | nil => intro l2 ctx; rfl
  | cons pr rest ih =>
    intro l2 ctx
    show measureRounds pattern ctx (pr :: (rest ++ l2)) = _
    rw [measureRounds_cons, measureRounds_cons]
    rcases hm : measureRound pattern ctx pr with e | c
    · rfl
    · exact ih l2 c

theorem roundsValid_append {A : Type} (pattern : List SetCode) :
    ∀ (l1 l2 : List (List (ProbeResult A))) (ctx : TrackingContext),
    roundsValid pattern ctx (l1 ++ l2) =
      (roundsValid pattern ctx l1 &&
        match measureRounds pattern ctx l1 with
        | .ok c => roundsValid pattern c l2
        | .error _ => true) := by
  intro l1
  induction l1 with
  | nil => intro l2 ctx; simp [roundsValid, measureRounds]
  | cons pr rest ih =>
    intro l2 ctx
    show roundsValid pattern ctx (pr :: (rest ++ l2)) = _
    rw [roundsValid_cons, roundsValid_cons, measureRounds_cons]
    rcases hm : measureRound pattern ctx pr with e | c
    · dsimp only
      simp
    · dsimp only
      rw [ih l2 c, Bool.and_assoc]

/-- Every successful `measureStep` preserves the `is_injected` flag: no branch
of the round classification ever clears it. -/
theorem measureStep_ok_injected {A : Type} {pattern : List SetCode}
    {ctx ctx1 : TrackingContext} {probes : List (ProbeResult A)}
    (hst : measureStep pattern ctx probes = .ok ctx1) :
    ctx1.is_injected = ctx.is_injected := by
  unfold measureStep at hst
  rcases hg : probes.get? ctx.pos with _ | pr
  · rw [hg] at hst
    exact absurd hst (by simp)
  · rw [hg] at hst
    dsimp only at hst
    by_cases hb : (pr.is_activated && ctx.is_injected) = true
    · rw [if_pos hb] at hst
      injection hst with h1
      rw [← h1]
      rfl
    · rw [if_neg hb] at hst
      by_cases hi : ctx.is_injected = true
      · rw [if_pos hi] at hst
        rcases hr : recover_next pattern ctx.pos probes with _ | p <;> rw [hr] at hst
        · exact absurd hst (by simp)
        · injection hst with h1
          rw [← h1]
          rfl
      · rw [if_neg hi] at hst
        injection hst with h1
        rw [← h1]
        rfl

theorem measureRound_ok_injected {A : Type} {pattern : List SetCode}
    {ctx ctx1 : TrackingContext} {probes : List (ProbeResult A)}
    (hctx : ctx.is_injected = true)
    (hr : measureRound pattern ctx probes = .ok ctx1) : ctx1.is_injected = true := by
  simp only [measureRound] at hr
  by_cases hs : ctx.should_inject = true
  · rw [if_pos hs] at hr
    rw [measureStep_ok_injected hr]
    rfl
  · rw [if_neg hs] at hr
    rw [measureStep_ok_injected hr]
    exact hctx

/-- Once the injected flag is set, every continuation of the round sequence is
valid: the inner probe loop exits immediately. -/
theorem roundsValid_of_injected {A : Type} (pattern : List SetCode) :
    ∀ (rounds : List (List (ProbeResult A))) (ctx : TrackingContext),
      ctx.is_injected = true → roundsValid pattern ctx rounds = true := by
  intro rounds
  induction rounds with
  | nil => intro ctx _; rfl
  | cons pr rest ih =>
    intro ctx hctx
    rw [roundsValid_cons]
    have hv : roundValid ctx pr = true := by
      unfold roundValid
      rw [hctx]
      simp
    rw [hv, Bool.true_and]
    rcases hm : measureRound pattern ctx pr with e | c
    · rfl
    · exact ih c (measureRound_ok_injected hctx hm)

theorem get?_probesAllAct {m : Nat} (h : m < 10) :
    probesAllAct.get? m = some (.Activated ()) := by
  interval_cases m <;> rfl

/-- A synchronized round at position `m < 10` with an all-Activated probe
vector advances the position to `(m+1) mod L`. -/
theorem measureRound_hit (pattern : List SetCode) (m : Nat) (h : m < 10) :
    measureRound pattern ⟨m, .Hit, false, true, 0⟩ probesAllAct =
      .ok ⟨(m + 1) % pattern.length, .Hit, false, true, 0⟩ := by
  have hg := get?_probesAllAct h
  show measureStep pattern ⟨m, .Hit, false, true, 0⟩ probesAllAct = _
  unfold measureStep
  rw [hg]
  rfl

/-- Driving the tracker from position `m` with `10 - m` synchronized rounds
and one more round reaches the out-of-bounds index panic when the pattern is
longer than the probe vector. -/
theorem hit_run_oob (pattern : List SetCode) (hL : 10 < pattern.length) :
    ∀ (k m : Nat), m + k = 10 →
      measureRounds pattern ⟨m, .Hit, false, true, 0⟩
        (List.replicate (k + 1) probesAllAct) = .error .outOfBounds := by
  intro k
  induction k with
  | zero =>
    intro m hm
    have hm' : m = 10 := by omega
    subst hm'
    rfl
  | succ k ih =>
    intro m hm
    have hm10 : m < 10 := by omega
    rw [List.replicate_succ, measureRounds_cons, measureRound_hit pattern m hm10,
      Nat.mod_eq_of_lt (by omega : m + 1 < pattern.length)]
    exact ih (m + 1) (by omega)

/-- Claim C2: for every pattern longer than `WINDOW_SIZE = 10`, the probe
vector of each round has exactly 10 entries, yet the sync-hit test indexes it
by the current pattern position; a reachable sequence of valid rounds
(starting from the initial position 1 that `get_init_pos` returns) drives the
position past 9 and the round classification then indexes the 10-entry probe
vector out of bounds, so `measure` panics. -/
theorem measure_out_of_bounds (pattern : List SetCode) (hL : 10 < pattern.length) :
    (∀ pos, (window pattern pos).length = WINDOW_SIZE) ∧
    ∃ rounds : List (List (ProbeResult Unit)),
      (∀ pr ∈ rounds, pr.length = WINDOW_SIZE) ∧
      roundsValid pattern (TrackingContext.new 1) rounds = true ∧
      measureRounds pattern (TrackingContext.new 1) rounds = .error .outOfBounds := by
  have hlen0 : pattern.length ≠ 0 := by omega
  constructor
  · intro pos
    unfold window
    rw [if_neg hlen0]
    simp
  · refine ⟨List.replicate 4 probesAllAct ++ List.replicate 9 probesAllAct, ?_, ?_, ?_⟩
    · intro pr hpr
      rcases List.mem_append.mp hpr with hmem | hmem <;>
        rw [List.eq_of_mem_replicate hmem] <;> rfl
    · rw [roundsValid_append]
      have h1 : roundsValid pattern (TrackingContext.new 1)
          (List.replicate 4 probesAllAct) = true := rfl
      have h2 : measureRounds pattern (TrackingContext.new 1)
          (List.replicate 4 probesAllAct) =
          .ok ⟨2 % pattern.length, .Hit, false, true, 0⟩ := rfl
      rw [h1, h2, Bool.true_and]
      exact roundsValid_of_injected pattern _ _ rfl
    · rw [measureRounds_append]
      have h2 : measureRounds pattern (TrackingContext.new 1)
          (List.replicate 4 probesAllAct) =
          .ok ⟨2 % pattern.length, .Hit, false, true, 0⟩ := rfl
      rw [h2, Nat.mod_eq_of_lt (by omega : 2 < pattern.length)]
      exact hit_run_oob pattern hL 8 2 (by omega)

/-- Length-11 pattern instantiating C2. -/
def pattern11 : List SetCode := (List.range 11).map (fun i => ⟨0, i⟩)

/-- Witness for C2 at the concrete pattern of length 11. -/
theorem measure_out_of_bounds_witness :
    (∀ pos, (window pattern11 pos).length = WINDOW_SIZE) ∧
    ∃ rounds : List (List (ProbeResult Unit)),
      (∀ pr ∈ rounds, pr.length = WINDOW_SIZE) ∧
      roundsValid pattern11 (TrackingContext.new 1) rounds = true ∧
      measureRounds pattern11 (TrackingContext.new 1) rounds = .error .outOfBounds :=
  measure_out_of_bounds pattern11 (by decide)

/-- `CacheTiming` of `src/rpp/timing_classif.rs`. -/
inductive CacheTiming where
  | Hit (t : Nat)
  | Miss (t : Nat)
deriving DecidableEq

/-- `CacheTiming::is_hit` of `src/rpp/timing_classif.rs`. -/
def CacheTiming.is_hit : CacheTiming → Bool
  | .Hit _ => true
  | .Miss _ => false

/-- `CacheTiming::is_miss` of `src/rpp/timing_classif.rs`. -/
def CacheTiming.is_miss : CacheTiming → Bool
  | .Hit _ => false
  | .Miss _ => true

/-- Insertion into a sorted list, used to compute the histogram median. -/
def sortedInsert (x : Nat) : List Nat → List Nat
  | [] => [x]
  | y :: ys => if x ≤ y then x :: y :: ys else y :: sortedInsert x ys

/-- Ascending insertion sort. -/
def sortNat (l : List Nat) : List Nat := l.foldr sortedInsert []

/-- `Histogram::value_at_percentile(50.0)` of the hdrhistogram crate: the
smallest recorded value whose cumulative count reaches
`ceil(total * 50 / 100)`, i.e. the `ceil(n/2)`-th smallest sample; 0 for an
empty histogram.  The histogram bucketing of hdrhistogram with 5 significant
digits is exact for the nanosecond magnitudes involved here, so the histogram
is modelled as an exact multiset of samples. -/
def p50 (l : List Nat) : Nat :=
  (sortNat l).getD ((l.length + 1) / 2 - 1) 0

/-- `TimingClassifier` of `src/rpp/timing_classif.rs`.  The source keeps the
two histograms plus cached centroid fields that are recomputed from the
histograms on every `record`; since the centroids are a function of the
recorded samples, the state is modelled by the two sample multisets and the
centroids are computed on demand. -/
structure TimingClassifier where
  hits : List Nat
  misses : List Nat
deriving DecidableEq

/-- `TimingClassifier::new` of `src/rpp/timing_classif.rs` (both centroids
start at 0, which `p50 []` yields). -/
def TimingClassifier.init : TimingClassifier := ⟨[], []⟩

/-- Cached `hit_centroid` field: p50 of the hit histogram. -/
def TimingClassifier.hit_centroid (c : TimingClassifier) : Int := (p50 c.hits : Int)

/-- Cached `miss_centroid` field: p50 of the miss histogram. -/
def TimingClassifier.miss_centroid (c : TimingClassifier) : Int := (p50 c.misses : Int)

/-- `TimingClassifier::record` of `src/rpp/timing_classif.rs`. -/
def TimingClassifier.record (c : TimingClassifier) : CacheTiming → TimingClassifier
  | .Hit t => { c with hits := t :: c.hits }
  | .Miss t => { c with misses := t :: c.misses }

/-- `TimingClassifier::classify` of `src/rpp/timing_classif.rs`: Miss when the
miss centroid is strictly nearer, Hit otherwise. -/
def TimingClassifier.classify (c : TimingClassifier) (t : Nat) : CacheTiming :=
  if (c.miss_centroid - (t : Int)).natAbs < (c.hit_centroid - (t : Int)).natAbs then
    .Miss t
  else
    .Hit t

/-- `TimingClassifier::is_hit` of `src/rpp/timing_classif.rs`. -/
def TimingClassifier.is_hit (c : TimingClassifier) (t : Nat) : Bool :=
  (c.classify t).is_hit

/-- `TimingClassifier::is_miss` of `src/rpp/timing_classif.rs`. -/
def TimingClassifier.is_miss (c : TimingClassifier) (t : Nat) : Bool :=
  (c.classify t).is_miss

/-- Classifier state after feeding 100 `Hit(100)` then 100 `Miss(400)`
(scenario S6). -/
def classifier_s6 : TimingClassifier :=
  ((List.replicate 100 (CacheTiming.Hit 100)) ++
    (List.replicate 100 (CacheTiming.Miss 400))).foldl TimingClassifier.record .init

/-- Claim C9: `classify(t)` returns Miss exactly when the miss centroid is
strictly closer to `t` than the hit centroid, with ties going to Hit; and for
the S6 classifier (centroids 100 and 400), `is_miss(251)`, `is_hit(249)` and
`classify(250) = Hit` all hold. -/
theorem classify_nearest :
    (∀ (c : TimingClassifier) (t : Nat),
      (c.is_miss t = true ↔
        (c.miss_centroid - (t : Int)).natAbs < (c.hit_centroid - (t : Int)).natAbs) ∧
      (c.is_hit t = true ↔
        ¬ (c.miss_centroid - (t : Int)).natAbs < (c.hit_centroid - (t : Int)).natAbs)) ∧
    classifier_s6.is_miss 251 = true ∧ classifier_s6.is_hit 249 = true ∧
    classifier_s6.classify 250 = .Hit 250 := by
  constructor
  · intro c t
    unfold TimingClassifier.is_miss TimingClassifier.is_hit TimingClassifier.classify
    by_cases hc : (c.miss_centroid - (t : Int)).natAbs < (c.hit_centroid - (t : Int)).natAbs
    · rw [if_pos hc]
      simp [CacheTiming.is_miss, CacheTiming.is_hit, hc]
    · rw [if_neg hc]
      simp [CacheTiming.is_miss, CacheTiming.is_hit, hc]
  · exact ⟨by decide, by decide, by decide⟩

/-- Claim C10 is false on the code: a classifier holding no miss samples but
one hit sample (at 100) has miss centroid 0 and hit centroid 100, so
`is_miss(10)` returns true (0 is strictly closer to 10 than 100 is). -/
theorem is_miss_no_miss_samples_cex :
    (TimingClassifier.init.record (CacheTiming.Hit 100)).misses = [] ∧
    (TimingClassifier.init.record (CacheTiming.Hit 100)).is_miss 10 = true := by
  decide

/-- Claim C10 (amended): while the classifier holds no samples at all (no miss
and no hit samples), `is_miss(t)` returns false for every `t` — both centroids
are 0, the distances tie, and ties go to Hit. -/
theorem is_miss_untrained (t : Nat) : TimingClassifier.init.is_miss t = false := by
  unfold TimingClassifier.is_miss TimingClassifier.classify
  have hcent : TimingClassifier.init.miss_centroid = TimingClassifier.init.hit_centroid := rfl
  rw [hcent, if_neg (lt_irrefl _)]
  rfl

/-- One sample of `Rpp::train_classifier` (src/rpp/mod.rs lines 174-198):
given the timed cold access `miss_time` and the timed cached access
`hit_time`, the pair is recorded only under `hit_time < miss_time`. -/
def train_sample (c : TimingClassifier) (miss_time hit_time : Nat) : TimingClassifier :=
  if hit_time < miss_time then
    (c.record (.Hit hit_time)).record (.Miss miss_time)
  else c

/-- Claim C8 (amended): a training pair is recorded if and only if the miss
time is strictly greater than the hit time; a pair with equal times is
discarded. -/
theorem train_sample_records (c : TimingClassifier) (miss_time hit_time : Nat) :
    ((train_sample c miss_time hit_time).hits = hit_time :: c.hits ∧
      (train_sample c miss_time hit_time).misses = miss_time :: c.misses) ↔
    hit_time < miss_time := by
  unfold train_sample
  by_cases hlt : hit_time < miss_time
  · rw [if_pos hlt]
    exact ⟨fun _ => hlt, fun _ => ⟨rfl, rfl⟩⟩
  · rw [if_neg hlt]
    constructor
    · rintro ⟨h1, _⟩
      exact absurd h1.symm (List.cons_ne_self _ _)
    · intro h
      exact absurd h hlt

/-- Claim C8 is false on the code: a pair with `miss_time = hit_time = 100`
satisfies miss ≥ hit but is not recorded (`hit_time < miss_time` fails). -/
theorem train_sample_equal_pair_cex :
    train_sample TimingClassifier.init 100 100 = TimingClassifier.init ∧
    100 ≤ 100 := by
  decide

/-- `PAGE_SIZE` of `src/rpp/params.rs`. -/
def PAGE_SIZE : Nat := 4096

/-- `TIMINGS_INIT_FILL` of `src/rpp/mod.rs`. -/
def TIMINGS_INIT_FILL : Nat := 150

/-- `TIMING_REFRESH_FILL` of `src/rpp/mod.rs`. -/
def TIMING_REFRESH_FILL : Nat := 50

/-- `RETRY_CNT` of `src/rpp/mod.rs`. -/
def RETRY_CNT : Nat := 10

/-- `CTL_BIT` of `src/rpp/mod.rs`. -/
def CTL_BIT : Nat := 6

/-- `CacheParams` of `src/rpp/params.rs`. -/
structure CacheParams where
  bytes_per_line : Nat
  lines_per_set : Nat
  reachable_lines : Nat
  cache_size : Nat
  addr_num : Nat

/-- `RppParams` of `src/rpp/params.rs`. -/
structure RppParams where
  n_lines : Nat
  n_sets : Nat
  n_sets_per_page : Nat
  n_colors : Nat
  v_buf : Nat

/-- `From<CacheParams> for RppParams` of `src/rpp/params.rs`. -/
def rppParamsOf (cp : CacheParams) : RppParams :=
  { n_lines := cp.reachable_lines
    n_sets := cp.cache_size / (cp.lines_per_set * cp.bytes_per_line)
    n_sets_per_page := PAGE_SIZE / cp.bytes_per_line
    n_colors := (cp.cache_size / (cp.lines_per_set * cp.bytes_per_line)) /
      (PAGE_SIZE / cp.bytes_per_line)
    v_buf := cp.addr_num * PAGE_SIZE }

/-- Environment of the RPP engine: `times k` is the latency the connector
reports for the k-th `time_access` call, and `pick k` drives the k-th random
choice (taken modulo the choice range).  This models the remote machine and
the random number generator; `cache`/`cache_all` calls and transport failures
are not modelled (every remote operation succeeds). -/
structure Env where
  times : Nat → Nat
  pick : Nat → Nat

/-- Mutable state of `Rpp` (src/rpp/mod.rs): the 64 address pools, the colored
sets table and the classifier, plus the environment counters.  `params` and
`quite` are immutable after construction and passed separately. -/
structure RppState where
  addrs : List (List Nat)
  colored_sets : List (List (List Nat))
  classifier : TimingClassifier
  timeCnt : Nat
  pickCnt : Nat

/-- `CacheConnector::time_access`: the latency is the next value of the
environment stream. -/
def time_access (env : Env) (st : RppState) : RppState × Nat :=
  ({ st with timeCnt := st.timeCnt + 1 }, env.times st.timeCnt)

/-- `Rpp::check_evicts` (src/rpp/mod.rs lines 262-278): cache `addr`, cache the
set (no observable effect in this model), time the access to `addr` and
classify it. -/
def check_evicts (env : Env) (st : RppState) (set : List Nat) (addr : Nat) :
    RppState × Bool :=
  let r := time_access env st
  (r.1, r.1.classifier.is_miss r.2)

/-- Sampling loop of `Rpp::train_classifier` (src/rpp/mod.rs lines 170-199):
each sampled offset is timed cold (miss), cached and timed again (hit), and
the pair is recorded only when the hit time is below the miss time. -/
def train_samples (env : Env) : RppState → Nat → RppState
  | st, 0 => st
  | st, k + 1 =>
    let r1 := time_access env st
    let r2 := time_access env r1.1
    train_samples env
      { r2.1 with classifier := train_sample r2.1.classifier r1.2 r2.2 } k

/-- `Rpp::train_classifier`: `choose_multiple` yields
`min(sampls_num, |pool 0|)` offsets. -/
def train_classifier (env : Env) (st : RppState) (sampls_num : Nat) : RppState :=
  train_samples env st (min sampls_num (st.addrs.getD 0 []).length)

/-- Error kinds of `std::io::ErrorKind` that the engine distinguishes. -/
inductive RppErr where
  | unexpectedEof
  | invalidInput
  | notFound
  | otherErr
deriving DecidableEq

/-- Inner loop of `Rpp::forward_selection` (src/rpp/mod.rs lines 411-419):
starting from `n`, test whether the first `n-1` pool addresses evict `addr`,
growing `n` until the pool is exhausted.  The fuel is the number of remaining
loop iterations (`total + 1` at the top level always suffices). -/
def forward_go (P : RppParams) (env : Env) (idx addr : Nat) :
    RppState → Nat → Nat → RppState × Except RppErr (List Nat)
  | st, _, 0 => (st, .error .otherErr)
  | st, n, fuel + 1 =>
    let pool := st.addrs.getD idx []
    if n ≤ pool.length then
      let sub := pool.take (n - 1)
      match check_evicts env st sub addr with
      | (st1, true) => (st1, .ok sub)
      | (st1, false) => forward_go P env idx addr st1 (n + 1) fuel
    else (st, .error .otherErr)

/-- `Rpp::forward_selection` (src/rpp/mod.rs lines 403-427). -/
def forward_selection (P : RppParams) (env : Env) (st : RppState) (idx addr : Nat) :
    RppState × Except RppErr (List Nat) :=
  let total := (st.addrs.getD idx []).length
  if total < P.n_lines + 1 then (st, .error .unexpectedEof)
  else forward_go P env idx addr st (max (total / 10) (P.n_lines + 1)) (total + 1)

/-- Chunk scan of `Rpp::backward_selection` (src/rpp/mod.rs lines 450-461):
try removing each of the first `n_lines` chunks in turn; return the start
index of the first removable chunk. -/
def backward_find (env : Env) (x : Nat) (s : List Nat) (chunk_len : Nat) :
    RppState → Nat → Nat → RppState × Option Nat
  | st, 0, _ => (st, none)
  | st, remaining + 1, idx =>
    match check_evicts env st (s.take idx ++ s.drop (idx + chunk_len)) x with
    | (st1, true) => (st1, some idx)
    | (st1, false) => backward_find env x s chunk_len st1 remaining (idx + chunk_len)

/-- Outer loop of `Rpp::backward_selection` (src/rpp/mod.rs lines 442-470):
repeatedly drop one chunk (a found removable chunk, else the tail) while the
set is larger than `n_lines`.  Fuel exhaustion is modelled as an error; the
partial-correctness theorems only concern runs that return `ok`. -/
def backward_go (P : RppParams) (env : Env) (x : Nat) :
    RppState → List Nat → Nat → RppState × Except RppErr (List Nat)
  | st, _, 0 => (st, .error .otherErr)
  | st, s, fuel + 1 =>
    if P.n_lines < s.length then
      let chunk_len := s.length / (P.n_lines + 1)
      match backward_find env x s chunk_len st P.n_lines 0 with
      | (st1, some idx) =>
        backward_go P env x st1 (s.take idx ++ s.drop (idx + chunk_len)) fuel
      | (st1, none) =>
        backward_go P env x st1 (s.take (P.n_lines * chunk_len)) fuel
    else (st, .ok s)

/-- `Rpp::backward_selection` (src/rpp/mod.rs lines 431-473). -/
def backward_selection (P : RppParams) (env : Env) (st : RppState)
    (s : List Nat) (x : Nat) : RppState × Except RppErr (List Nat) :=
  if s.length < P.n_lines then (st, .error .otherErr)
  else if s.length = P.n_lines then (st, .ok s)
  else backward_go P env x st s s.length

/-- `Rpp::remove_used_addrs` (src/rpp/mod.rs lines 482-485). -/
def remove_used_addrs (st : RppState) (s : List Nat) (idx : Nat) : RppState :=
  let pool := (st.addrs.getD idx []).filter (fun x => !s.contains x)
  { st with addrs := st.addrs.set idx pool }

/-- Scan of `Rpp::cleanup_congruent` (src/rpp/mod.rs lines 487-505): walk a
snapshot of the pool and keep exactly the addresses the new set does not
evict. -/
def cleanup_go (env : Env) (s : List Nat) :
    RppState → List Nat → List Nat → RppState × List Nat
  | st, [], kept => (st, kept.reverse)
  | st, x :: rest, kept =>
    match check_evicts env st s x with
    | (st1, true) => cleanup_go env s st1 rest kept
    | (st1, false) => cleanup_go env s st1 rest (x :: kept)

/-- `Rpp::cleanup_congruent`. -/
def cleanup_congruent (env : Env) (st : RppState) (s : List Nat) (idx : Nat) :
    RppState :=
  let r := cleanup_go env s st (st.addrs.getD idx []) []
  { r.1 with addrs := r.1.addrs.set idx r.2 }

/-- `Rpp::build_set_for_idx_addr` (src/rpp/mod.rs lines 290-296). -/
def build_set_for_idx_addr (P : RppParams) (env : Env) (st : RppState)
    (idx addr : Nat) : RppState × Except RppErr (List Nat) :=
  match forward_selection P env st idx addr with
  | (st1, .error e) => (st1, .error e)
  | (st1, .ok s0) =>
    match backward_selection P env st1 s0 addr with
    | (st2, .error e) => (st2, .error e)
    | (st2, .ok s) => (remove_used_addrs st2 s idx, .ok s)

/-- `Rpp::build_initial_set` (src/rpp/mod.rs lines 280-287): `choose` is
driven by the `pick` stream. -/
def build_initial_set (P : RppParams) (env : Env) (st : RppState) :
    RppState × Except RppErr (List Nat) :=
  let pool0 := st.addrs.getD 0 []
  if pool0.length = 0 then (st, .error .unexpectedEof)
  else
    let addr := pool0.getD (env.pick st.pickCnt % pool0.length) 0
    let st1 := { st with pickCnt := st.pickCnt + 1 }
    match build_set_for_idx_addr P env st1 0 addr with
    | (st2, .error e) => (st2, .error e)
    | (st2, .ok s) => (cleanup_congruent env st2 s 0, .ok s)

/-- Candidate scan of `Rpp::add_sets` (src/rpp/mod.rs lines 310-317): try the
xored addresses of the base set until one yields an eviction set. -/
def derive_addr_loop (P : RppParams) (env : Env) (i : Nat) :
    RppState → List Nat → RppState × Option (List Nat)
  | st, [] => (st, none)
  | st, a :: rest =>
    match build_set_for_idx_addr P env st i a with
    | (st1, .ok s) => (st1, some s)
    | (st1, .error _) => derive_addr_loop P env i st1 rest

/-- Sibling loop of `Rpp::add_sets` (src/rpp/mod.rs lines 309-324): for
`i in 1..NUM_VARIANTS` (counted down by the first argument), derive one set
from pool `i` seeded by the xored addresses, failing with NotFound when a
variant yields none. -/
def add_sets_go (P : RppParams) (env : Env) (set : List Nat) :
    RppState → Nat → Nat → List (List Nat) → RppState × Except RppErr (List (List Nat))
  | st, 0, _, sets => (st, .ok sets)
  | st, c + 1, i, sets =>
    match derive_addr_loop P env i st (set.map (fun x => x ^^^ (i <<< CTL_BIT))) with
    | (st1, some s) => add_sets_go P env set st1 c (i + 1) (sets ++ [s])
    | (st1, none) => (st1, .error .notFound)

/-- `Rpp::add_sets` (src/rpp/mod.rs lines 300-330, the compiled
`not(feature = "xor_slice_hash")` version): derive 63 sibling sets and append
the 64-set color.  No uniqueness check is performed: `Rpp::is_unique` has no
caller in the crate. -/
def add_sets (P : RppParams) (env : Env) (st : RppState) (set : List Nat) :
    RppState × Except RppErr Unit :=
  match add_sets_go P env set st 63 1 [set] with
  | (st1, .ok sets) => ({ st1 with colored_sets := st1.colored_sets ++ [sets] }, .ok ())
  | (st1, .error e) => (st1, .error e)

/-- Retry loop around `add_sets` in `Rpp::build_sets` (src/rpp/mod.rs lines
226-233): retry until success, panicking (modelled by `false`) after
`RETRY_CNT + 1` consecutive failures. -/
def add_sets_retry (P : RppParams) (env : Env) (set : List Nat) :
    RppState → Nat → RppState × Bool
  | st, 0 => (st, false)
  | st, n + 1 =>
    match add_sets P env st set with
    | (st1, .ok _) => (st1, true)
    | (st1, .error _) => add_sets_retry P env set st1 n

/-- Classifier-refresh step at the bottom of the `build_sets` loop
(src/rpp/mod.rs lines 250-253): the source tests `self.addrs.len() > 500`,
where `addrs` is the vector of the 64 address pools. -/
def refresh_step (env : Env) (st : RppState) : RppState :=
  if st.addrs.length > 500 then train_classifier env st TIMING_REFRESH_FILL else st

/-- Main loop of `Rpp::build_sets` (src/rpp/mod.rs lines 223-254).  The Bool
result is true when the loop completed (profiled `n_colors` colors) and false
when it panicked or ran out of fuel.  The `UnexpectedEof` panic is guarded by
`!self.quite` in the source. -/
def build_loop (P : RppParams) (env : Env) (quite : Bool) :
    RppState → Nat → RppState × Bool
  | st, 0 => (st, false)
  | st, fuel + 1 =>
    if st.colored_sets.length < P.n_colors then
      match build_initial_set P env st with
      | (st1, .ok set) =>
        match add_sets_retry P env set st1 (RETRY_CNT + 1) with
        | (st2, true) => build_loop P env quite (refresh_step env st2) fuel
        | (st2, false) => (st2, false)
      | (st1, .error e) =>
        if e = RppErr.unexpectedEof ∧ quite = false then (st1, false)
        else build_loop P env quite (refresh_step env st1) fuel
    else (st, true)

/-- Address-pool table built by `Rpp::with_params` (src/rpp/mod.rs lines
106-114): pool `i` holds the page-aligned offsets xored with `i << 6`. -/
def with_params_state (cp : CacheParams) : RppState :=
  { addrs := (List.range 64).map (fun i =>
      (List.range ((rppParamsOf cp).v_buf / PAGE_SIZE)).map
        (fun x => (x * PAGE_SIZE) ^^^ (i <<< CTL_BIT)))
    colored_sets := []
    classifier := .init
    timeCnt := 0
    pickCnt := 0 }

/-- `Rpp::with_params` followed by `Rpp::build_sets`: reserve the buffer
(no observable effect), train the classifier with `TIMINGS_INIT_FILL`
samples, then run the build loop. -/
def rpp_build (cp : CacheParams) (env : Env) (quite : Bool) (fuel : Nat) :
    RppState × Bool :=
  build_loop (rppParamsOf cp) env quite
    (train_classifier env (with_params_state cp) TIMINGS_INIT_FILL) fuel

/-- Invariant relation between two engine states: the colored-sets table, the
number of pools and the classifier are unchanged.  Every helper of the build
loop except the classifier training satisfies it. -/
def stable (st st1 : RppState) : Prop :=
  st1.colored_sets = st.colored_sets ∧ st1.addrs.length = st.addrs.length ∧
    st1.classifier = st.classifier

theorem stable_refl (st : RppState) : stable st st := ⟨rfl, rfl, rfl⟩

theorem stable_trans {a b c : RppState} (h1 : stable a b) (h2 : stable b c) :
    stable a c :=
  ⟨h2.1.trans h1.1, h2.2.1.trans h1.2.1, h2.2.2.trans h1.2.2⟩

theorem check_evicts_stable (env : Env) (st : RppState) (set : List Nat) (addr : Nat) :
    stable st (check_evicts env st set addr).1 := ⟨rfl, rfl, rfl⟩

theorem forward_go_stable (P : RppParams) (env : Env) (idx addr : Nat) :
    ∀ (fuel n : Nat) (st : RppState), stable st (forward_go P env idx addr st n fuel).1 := by
  intro fuel
  induction fuel with
  | zero => intro n st; exact stable_refl _
  | succ fuel ih =>
    intro n st
    simp only [forward_go]
    split
    · split
      · rename_i st1 heq
        have h := check_evicts_stable env st ((st.addrs.getD idx []).take (n - 1)) addr
        rw [heq] at h
        exact h
      · rename_i st1 heq
        have h := check_evicts_stable env st ((st.addrs.getD idx []).take (n - 1)) addr
        rw [heq] at h
        exact stable_trans h (ih (n + 1) st1)
    · exact stable_refl _

theorem forward_selection_stable (P : RppParams) (env : Env) (st : RppState)
    (idx addr : Nat) : stable st (forward_selection P env st idx addr).1 := by
  unfold forward_selection
  dsimp only
  split
  · exact stable_refl _
  · exact forward_go_stable P env idx addr _ _ st

theorem backward_find_stable (env : Env) (x : Nat) (s : List Nat) (chunk_len : Nat) :
    ∀ (remaining idx : Nat) (st : RppState),
      stable st (backward_find env x s chunk_len st remaining idx).1 := by
  intro remaining
  induction remaining with
  | zero => intro idx st; exact stable_refl _
  | succ remaining ih =>
    intro idx st
    simp only [backward_find]
    split
    · rename_i st1 heq
      have h := check_evicts_stable env st (s.take idx ++ s.drop (idx + chunk_len)) x
      rw [heq] at h
      exact h
    · rename_i st1 heq
      have h := check_evicts_stable env st (s.take idx ++ s.drop (idx + chunk_len)) x
      rw [heq] at h
      exact stable_trans h (ih (idx + chunk_len) st1)

theorem backward_go_stable (P : RppParams) (env : Env) (x : Nat) :
    ∀ (fuel : Nat) (s : List Nat) (st : RppState),
      stable st (backward_go P env x st s fuel).1 := by
  intro fuel
  induction fuel with
  | zero => intro s st; exact stable_refl _
  | succ fuel ih =>
    intro s st
    simp only [backward_go]
    split
    · split
      · rename_i st1 idx heq
        have h := backward_find_stable env x s (s.length / (P.n_lines + 1)) P.n_lines 0 st
        rw [heq] at h
        exact stable_trans h (ih _ st1)
      · rename_i st1 heq
        have h := backward_find_stable env x s (s.length / (P.n_lines + 1)) P.n_lines 0 st
        rw [heq] at h
        exact stable_trans h (ih _ st1)
    · exact stable_refl _

theorem backward_selection_stable (P : RppParams) (env : Env) (st : RppState)
    (s : List Nat) (x : Nat) : stable st (backward_selection P env st s x).1 := by
  unfold backward_selection
  split
  · exact stable_refl _
  · split
    · exact stable_refl _
    · exact backward_go_stable P env x s.length s st

theorem remove_used_addrs_stable (st : RppState) (s : List Nat) (idx : Nat) :
    stable st (remove_used_addrs st s idx) :=
  ⟨rfl, List.length_set .., rfl⟩

theorem cleanup_go_stable (env : Env) (s : List Nat) :
    ∀ (l kept : List Nat) (st : RppState), stable st (cleanup_go env s st l kept).1 := by
  intro l
  induction l with
  | nil => intro kept st; exact stable_refl _
  | cons x rest ih =>
    intro kept st
    simp only [cleanup_go]
    split
    · rename_i st1 heq
      have h := check_evicts_stable env st s x
      rw [heq] at h
      exact stable_trans h (ih kept st1)
    · rename_i st1 heq
      have h := check_evicts_stable env st s x
      rw [heq] at h
      exact stable_trans h (ih (x :: kept) st1)

theorem cleanup_congruent_stable (env : Env) (st : RppState) (s : List Nat) (idx : Nat) :
    stable st (cleanup_congruent env st s idx) := by
  unfold cleanup_congruent
  have h := cleanup_go_stable env s (st.addrs.getD idx []) [] st
  exact ⟨h.1, (List.length_set ..).trans h.2.1, h.2.2⟩

theorem build_set_stable (P : RppParams) (env : Env) (st : RppState) (idx addr : Nat) :
    stable st (build_set_for_idx_addr P env st idx addr).1 := by
  unfold build_set_for_idx_addr
  split
  · rename_i st1 e heq
    have h := forward_selection_stable P env st idx addr
    rw [heq] at h
    exact h
  · rename_i st1 s0 heq
    have h1 := forward_selection_stable P env st idx addr
    rw [heq] at h1
    split
    · rename_i st2 e heq2
      have h2 := backward_selection_stable P env st1 s0 addr
      rw [heq2] at h2
      exact stable_trans h1 h2
    · rename_i st2 s2 heq2
      have h2 := backward_selection_stable P env st1 s0 addr
      rw [heq2] at h2
      exact stable_trans h1 (stable_trans h2 (remove_used_addrs_stable st2 s2 idx))

theorem build_initial_stable (P : RppParams) (env : Env) (st : RppState) :
    stable st (build_initial_set P env st).1 := by
  unfold build_initial_set
  dsimp only
  split
  · exact stable_refl _
  · split
    · rename_i st2 e heq
      have h := build_set_stable P env { st with pickCnt := st.pickCnt + 1 } 0
        ((st.addrs.getD 0 []).getD (env.pick st.pickCnt % (st.addrs.getD 0 []).length) 0)
      rw [heq] at h
      exact h
    · rename_i st2 s heq
      have h := build_set_stable P env { st with pickCnt := st.pickCnt + 1 } 0
        ((st.addrs.getD 0 []).getD (env.pick st.pickCnt % (st.addrs.getD 0 []).length) 0)
      rw [heq] at h
      exact stable_trans h (cleanup_congruent_stable env st2 s 0)

theorem derive_addr_loop_stable (P : RppParams) (env : Env) (i : Nat) :
    ∀ (l : List Nat) (st : RppState), stable st (derive_addr_loop P env i st l).1 := by
  intro l
  induction l with
  | nil => intro st; exact stable_refl _
  | cons a rest ih =>
    intro st
    simp only [derive_addr_loop]
    split
    · rename_i st1 s heq
      have h := build_set_stable P env st i a
      rw [heq] at h
      exact h
    · rename_i st1 e heq
      have h := build_set_stable P env st i a
      rw [heq] at h
      exact stable_trans h (ih st1)

theorem add_sets_go_stable (P : RppParams) (env : Env) (set : List Nat) :
    ∀ (c : Nat) (st : RppState) (i : Nat) (sets : List (List Nat)),
      stable st (add_sets_go P env set st c i sets).1 := by
  intro c
  induction c with
  | zero => intro st i sets; exact stable_refl _
  | succ c ih =>
    intro st i sets
    simp only [add_sets_go]
    split
    · rename_i st1 s heq
      have h := derive_addr_loop_stable P env i (set.map (fun x => x ^^^ (i <<< CTL_BIT))) st
      rw [heq] at h
      exact stable_trans h (ih st1 (i + 1) (sets ++ [s]))
    · rename_i st1 heq
      have h := derive_addr_loop_stable P env i (set.map (fun x => x ^^^ (i <<< CTL_BIT))) st
      rw [heq] at h
      exact h

theorem train_samples_pools (env : Env) :
    ∀ (k : Nat) (st : RppState),
      (train_samples env st k).addrs = st.addrs ∧
      (train_samples env st k).colored_sets = st.colored_sets := by
  intro k
  induction k with
  | zero => intro st; exact ⟨rfl, rfl⟩
  | succ k ih =>
    intro st
    simp only [train_samples]
    exact ih _

theorem train_classifier_pools (env : Env) (st : RppState) (n : Nat) :
    (train_classifier env st n).addrs = st.addrs ∧
    (train_classifier env st n).colored_sets = st.colored_sets :=
  train_samples_pools env _ st

theorem refresh_step_pools (env : Env) (st : RppState) :
    (refresh_step env st).addrs.length = st.addrs.length ∧
    (refresh_step env st).colored_sets = st.colored_sets := by
  unfold refresh_step
  split
  · exact ⟨congrArg List.length (train_classifier_pools env st _).1,
      (train_classifier_pools env st _).2⟩
  · exact ⟨rfl, rfl⟩

/-- The refresh guard compares the number of pools — always 64 — with 500, so
it never fires. -/
theorem refresh_step_skipped (env : Env) (st : RppState) (h : st.addrs.length = 64) :
    refresh_step env st = st := by
  unfold refresh_step
  rw [if_neg]
  omega

theorem drain_length_ge (s : List Nat) (idx c : Nat) :
    s.length - c ≤ (s.take idx ++ s.drop (idx + c)).length := by
  rw [List.length_append, List.length_take, List.length_drop]
  omega

theorem sub_div_ge (len W : Nat) (h : W < len) : W ≤ len - len / (W + 1) := by
  have h1 : len / (W + 1) * (W + 1) ≤ len := Nat.div_mul_le_self len (W + 1)
  have h2 : 1 ≤ len / (W + 1) := (Nat.one_le_div_iff (Nat.succ_pos W)).mpr h
  have h3 : len / (W + 1) * W + len / (W + 1) ≤ len := by
    have : len / (W + 1) * W + len / (W + 1) = len / (W + 1) * (W + 1) := by ring
    omega
  have h4 : W ≤ len / (W + 1) * W := Nat.le_mul_of_pos_left W h2
  exact Nat.le_sub_of_add_le (le_trans (Nat.add_le_add_right h4 _) h3)

/-- Backward selection only ever answers `ok` with a set of exactly `n_lines`
addresses: every chunk removal keeps the set at `n_lines` or more, and the
loop only exits at `n_lines` or fewer. -/
theorem backward_go_ok_len (P : RppParams) (env : Env) (x : Nat) :
    ∀ (fuel : Nat) (s : List Nat) (st st1 : RppState) (s1 : List Nat),
      backward_go P env x st s fuel = (st1, .ok s1) → P.n_lines ≤ s.length →
      s1.length = P.n_lines := by
  intro fuel
  induction fuel with
  | zero =>
    intro s st st1 s1 h
    simp [backward_go] at h
  | succ fuel ih =>
    intro s st st1 s1 h hge
    simp only [backward_go] at h
    split at h
    · rename_i hlt
      split at h
      · rename_i st2 idx heq
        have hd := drain_length_ge s idx (s.length / (P.n_lines + 1))
        have hs := sub_div_ge s.length P.n_lines hlt
        exact ih _ _ _ _ h (by omega)
      · rename_i st2 heq
        have hchunk : 1 ≤ s.length / (P.n_lines + 1) :=
          (Nat.one_le_div_iff (Nat.succ_pos _)).mpr (by omega)
        have hge2 : P.n_lines ≤ (s.take (P.n_lines * (s.length / (P.n_lines + 1)))).length := by
          rw [List.length_take]
          exact le_min (Nat.le_mul_of_pos_right _ hchunk) (le_of_lt (by omega))
        exact ih _ _ _ _ h hge2
    · rename_i hnlt
      rw [Prod.mk.injEq] at h
      obtain ⟨-, h2⟩ := h
      injection h2 with h3
      rw [← h3]
      omega

theorem backward_selection_ok_len (P : RppParams) (env : Env) (st : RppState)
    (s : List Nat) (x : Nat) (st1 : RppState) (s1 : List Nat)
    (h : backward_selection P env st s x = (st1, .ok s1)) : s1.length = P.n_lines := by
  unfold backward_selection at h
  split at h
  · simp at h
  · split at h
    · rename_i hne heq
      rw [Prod.mk.injEq] at h
      obtain ⟨-, h2⟩ := h
      injection h2 with h3
      rw [← h3]
      exact heq
    · exact backward_go_ok_len P env x s.length s st st1 s1 h (by omega)

theorem build_set_ok_len (P : RppParams) (env : Env) (st : RppState) (idx addr : Nat)
    (st1 : RppState) (s : List Nat)
    (h : build_set_for_idx_addr P env st idx addr = (st1, .ok s)) :
    s.length = P.n_lines := by
  unfold build_set_for_idx_addr at h
  split at h
  · simp at h
  · rename_i st2 s0 heq
    split at h
    · simp at h
    · rename_i st3 s2 heq2
      rw [Prod.mk.injEq] at h
      obtain ⟨-, h2⟩ := h
      injection h2 with h3
      rw [← h3]
      exact backward_selection_ok_len P env st2 s0 addr st3 s2 heq2

theorem build_initial_ok_len (P : RppParams) (env : Env) (st st1 : RppState)
    (s : List Nat) (h : build_initial_set P env st = (st1, .ok s)) :
    s.length = P.n_lines := by
  unfold build_initial_set at h
  dsimp only at h
  split at h
  · simp at h
  · split at h
    · simp at h
    · rename_i st2 s0 heq
      rw [Prod.mk.injEq] at h
      obtain ⟨-, h2⟩ := h
      injection h2 with h3
      rw [← h3]
      exact build_set_ok_len P env _ 0 _ st2 s0 heq

theorem derive_addr_loop_some_len (P : RppParams) (env : Env) (i : Nat) :
    ∀ (l : List Nat) (st st1 : RppState) (s : List Nat),
      derive_addr_loop P env i st l = (st1, some s) → s.length = P.n_lines := by
  intro l
  induction l with
  | nil =>
    intro st st1 s h
    simp [derive_addr_loop] at h
  | cons a rest ih =>
    intro st st1 s h
    simp only [derive_addr_loop] at h
    split at h
    · rename_i st2 s2 heq
      rw [Prod.mk.injEq] at h
      obtain ⟨-, h2⟩ := h
      injection h2 with h3
      rw [← h3]
      exact build_set_ok_len P env st i a st2 s2 heq
    · exact ih _ _ _ h

theorem add_sets_go_ok_shape (P : RppParams) (env : Env) (set : List Nat) :
    ∀ (c : Nat) (st : RppState) (i : Nat) (sets0 : List (List Nat)) (st1 : RppState)
      (sets1 : List (List Nat)),
      add_sets_go P env set st c i sets0 = (st1, .ok sets1) →
      sets1.length = sets0.length + c ∧
        ∀ s ∈ sets1, s ∈ sets0 ∨ s.length = P.n_lines := by
  intro c
  induction c with
  | zero =>
    intro st i sets0 st1 sets1 h
    simp only [add_sets_go] at h
    rw [Prod.mk.injEq] at h
    obtain ⟨-, h2⟩ := h
    injection h2 with h3
    constructor
    · rw [← h3]
      omega
    · intro s hs
      exact Or.inl (h3 ▸ hs)
  | succ c ih =>
    intro st i sets0 st1 sets1 h
    simp only [add_sets_go] at h
    split at h
    · rename_i st2 s2 heq
      obtain ⟨hlen, hmem⟩ := ih st2 (i + 1) (sets0 ++ [s2]) st1 sets1 h
      constructor
      · rw [hlen, List.length_append, List.length_singleton]
        omega
      · intro s hs
        rcases hmem s hs with hin | hl
        · rcases List.mem_append.mp hin with h1 | h1
          · exact Or.inl h1
          · right
            rw [List.mem_singleton.mp h1]
            exact derive_addr_loop_some_len P env i _ st st2 s2 heq
        · exact Or.inr hl
    · simp at h

theorem add_sets_ok_shape (P : RppParams) (env : Env) (st : RppState)
    (set : List Nat) (st1 : RppState) (hset : set.length = P.n_lines)
    (h : add_sets P env st set = (st1, .ok ())) :
    ∃ sets, st1.colored_sets = st.colored_sets ++ [sets] ∧ sets.length = 64 ∧
      ∀ s ∈ sets, s.length = P.n_lines := by
  unfold add_sets at h
  split at h
  · rename_i st2 sets heq
    obtain ⟨hlen, hmem⟩ := add_sets_go_ok_shape P env set 63 st 1 [set] st2 sets heq
    have hst2 := add_sets_go_stable P env set 63 st 1 [set]
    rw [heq] at hst2
    rw [Prod.mk.injEq] at h
    obtain ⟨h1, -⟩ := h
    refine ⟨sets, ?_, ?_, ?_⟩
    · rw [← h1]
      show st2.colored_sets ++ [sets] = st.colored_sets ++ [sets]
      rw [hst2.1]
    · rw [hlen]
      rfl
    · intro s hs
      rcases hmem s hs with h1 | h1
      · rw [List.mem_singleton.mp h1]
        exact hset
      · exact h1
  · simp at h

theorem add_sets_err_stable (P : RppParams) (env : Env) (st : RppState)
    (set : List Nat) (st1 : RppState) (e : RppErr)
    (h : add_sets P env st set = (st1, .error e)) : stable st st1 := by
  unfold add_sets at h
  split at h
  · simp at h
  · rename_i st2 e2 heq
    have hst2 := add_sets_go_stable P env set 63 st 1 [set]
    rw [heq] at hst2
    rw [Prod.mk.injEq] at h
    obtain ⟨h1, -⟩ := h
    rw [← h1]
    exact hst2

/-- Classifier and pool count are untouched by `add_sets`, whatever the
outcome. -/
theorem add_sets_cl_addrs (P : RppParams) (env : Env) (st : RppState) (set : List Nat) :
    (add_sets P env st set).1.classifier = st.classifier ∧
    (add_sets P env st set).1.addrs.length = st.addrs.length := by
  unfold add_sets
  split
  · rename_i st2 sets heq
    have hst2 := add_sets_go_stable P env set 63 st 1 [set]
    rw [heq] at hst2
    exact ⟨hst2.2.2, hst2.2.1⟩
  · rename_i st2 e heq
    have hst2 := add_sets_go_stable P env set 63 st 1 [set]
    rw [heq] at hst2
    exact ⟨hst2.2.2, hst2.2.1⟩

theorem add_sets_retry_true (P : RppParams) (env : Env) (set : List Nat)
    (hset : set.length = P.n_lines) :
    ∀ (n : Nat) (st st1 : RppState),
      add_sets_retry P env set st n = (st1, true) →
      ∃ sets, st1.colored_sets = st.colored_sets ++ [sets] ∧ sets.length = 64 ∧
        ∀ s ∈ sets, s.length = P.n_lines := by
  intro n
  induction n with
  | zero =>
    intro st st1 h
    simp [add_sets_retry] at h
  | succ n ih =>
    intro st st1 h
    simp only [add_sets_retry] at h
    split at h
    · rename_i st2 u heq
      rw [Prod.mk.injEq] at h
      obtain ⟨h1, -⟩ := h
      cases u
      rw [← h1]
      exact add_sets_ok_shape P env st set st2 hset heq
    · rename_i st2 e heq
      obtain ⟨sets, hc, hl, hm⟩ := ih st2 st1 h
      have hst2 := add_sets_err_stable P env st set st2 e heq
      exact ⟨sets, by rw [hc, hst2.1], hl, hm⟩

/-- Classifier and pool count are untouched by the whole retry loop. -/
theorem add_sets_retry_cl (P : RppParams) (env : Env) (set : List Nat) :
    ∀ (n : Nat) (st : RppState),
      (add_sets_retry P env set st n).1.classifier = st.classifier ∧
      (add_sets_retry P env set st n).1.addrs.length = st.addrs.length := by
  intro n
  induction n with
  | zero => intro st; exact ⟨rfl, rfl⟩
  | succ n ih =>
    intro st
    simp only [add_sets_retry]
    split
    · rename_i st2 u heq
      have h := add_sets_cl_addrs P env st set
      rw [heq] at h
      exact h
    · rename_i st2 e heq
      have h := add_sets_cl_addrs P env st set
      rw [heq] at h
      obtain ⟨h1, h2⟩ := ih st2
      exact ⟨h1.trans h.1, h2.trans h.2⟩

/-- Partial correctness of the build loop: when it reports completion, the
table holds exactly `n_colors` colors, each with exactly 64 (`NUM_VARIANTS`)
eviction sets of exactly `n_lines` addresses. -/
theorem build_loop_inv (P : RppParams) (env : Env) (quite : Bool) :
    ∀ (fuel : Nat) (st st1 : RppState),
      build_loop P env quite st fuel = (st1, true) →
      (∀ sets ∈ st.colored_sets, sets.length = 64 ∧ ∀ s ∈ sets, s.length = P.n_lines) →
      st.colored_sets.length ≤ P.n_colors →
      st1.colored_sets.length = P.n_colors ∧
        ∀ sets ∈ st1.colored_sets, sets.length = 64 ∧ ∀ s ∈ sets, s.length = P.n_lines := by
  intro fuel
  induction fuel with
  | zero =>
    intro st st1 h _ _
    simp [build_loop] at h
  | succ fuel ih =>
    intro st st1 h hshape hle
    simp only [build_loop] at h
    split at h
    · rename_i hlt
      split at h
      · rename_i st2 set heq
        split at h
        · rename_i st3 hret
          have hsetlen : set.length = P.n_lines := build_initial_ok_len P env st st2 set heq
          obtain ⟨sets, hc, h64, hmem⟩ :=
            add_sets_retry_true P env set hsetlen _ st2 st3 hret
          have hbi := build_initial_stable P env st
          rw [heq] at hbi
          have href := (refresh_step_pools env st3).2
          apply ih _ _ h
          · intro sets2 hsets2
            rw [href, hc, hbi.1] at hsets2
            rcases List.mem_append.mp hsets2 with h1 | h1
            · exact hshape sets2 h1
            · rw [List.mem_singleton.mp h1]
              exact ⟨h64, hmem⟩
          · rw [href, hc, hbi.1, List.length_append, List.length_singleton]
            omega
        · simp at h
      · rename_i st2 e heq
        split at h
        · simp at h
        · have hbi := build_initial_stable P env st
          rw [heq] at hbi
          have href := (refresh_step_pools env st2).2
          apply ih _ _ h
          · intro sets2 hsets2
            rw [href, hbi.1] at hsets2
            exact hshape sets2 hsets2
          · rw [href, hbi.1]
            exact hle
    · rename_i hnlt
      rw [Prod.mk.injEq] at h
      obtain ⟨h1, -⟩ := h
      rw [← h1]
      exact ⟨by omega, hshape⟩

/-- Claim C5 (amended): after `Rpp` construction completes successfully, the
`colored_sets` table holds exactly `n_colors` colors; every color holds
exactly 64 eviction sets — the hardcoded `NUM_VARIANTS`, which coincides with
`n_sets_per_page` only when `bytes_per_line = 64`; and every eviction set
holds exactly `reachable_lines` addresses. -/
theorem rpp_build_shape (cp : CacheParams) (env : Env) (quite : Bool) (fuel : Nat)
    (h : (rpp_build cp env quite fuel).2 = true) :
    (rpp_build cp env quite fuel).1.colored_sets.length = (rppParamsOf cp).n_colors ∧
    ∀ sets ∈ (rpp_build cp env quite fuel).1.colored_sets,
      sets.length = 64 ∧ ∀ s ∈ sets, s.length = cp.reachable_lines := by
  have hinit :
      (train_classifier env (with_params_state cp) TIMINGS_INIT_FILL).colored_sets = [] :=
    (train_classifier_pools env (with_params_state cp) TIMINGS_INIT_FILL).2
  unfold rpp_build at h ⊢
  rcases hb : build_loop (rppParamsOf cp) env quite
      (train_classifier env (with_params_state cp) TIMINGS_INIT_FILL) fuel with ⟨st1, b⟩
  rw [hb] at h
  dsimp at h
  rw [h] at hb
  exact build_loop_inv (rppParamsOf cp) env quite fuel _ st1 hb
    (by rw [hinit]; intro sets hsets; exact absurd hsets (List.not_mem_nil sets))
    (by rw [hinit]; simp)

/-- Custom parameters with 128-byte lines: `n_sets_per_page = 32` while the
construction still produces 64 sets per color. -/
def cpC5 : CacheParams := ⟨128, 1, 1, 4096, 4⟩

/-- Environment for the C5 run: the initial training sees alternating
400ns/100ns pairs (training the classifier to centroids 400/100), after which
every probed latency is 400ns, so every `check_evicts` answers true. -/
def envC5 : Env :=
  { times := fun k => if k < 8 then (if k % 2 = 0 then 400 else 100) else 400
    pick := fun _ => 0 }

/-- A complete successful construction run under `cpC5`/`envC5`. -/
def runC5 : RppState × Bool := rpp_build cpC5 envC5 true 2

/-- Claim C5 is false on the code as stated: this successful construction run
has `n_sets_per_page = 32` (128-byte lines) but its color holds 64 eviction
sets — `add_sets` always pushes `NUM_VARIANTS = 64` sets per color. -/
theorem rpp_build_sets_per_page_cex :
    runC5.2 = true ∧
    (rppParamsOf cpC5).n_sets_per_page = 32 ∧
    runC5.1.colored_sets.length = (rppParamsOf cpC5).n_colors ∧
    (runC5.1.colored_sets.getD 0 []).length = 64 :=
  ⟨by decide, by decide, by decide, by decide⟩

/-- Witness for the amended C5 at the concrete run. -/
theorem rpp_build_shape_witness :
    runC5.1.colored_sets.length = (rppParamsOf cpC5).n_colors ∧
    ∀ sets ∈ runC5.1.colored_sets,
      sets.length = 64 ∧ ∀ s ∈ sets, s.length = cpC5.reachable_lines :=
  rpp_build_shape cpC5 envC5 true 2 (by decide)

/-- Witness-drawing loop of the uniqueness check described by the spec
(§ 4.2.3): draw 5 random addresses from the other set and count how many the
candidate evicts.  This is the comparator definition for claim C6, following
the wording of the spec; the source function `Rpp::is_unique` implements the
same voting but is never called by the construction. -/
def uniqueness_witness_go (env : Env) (candidate other : List Nat) :
    RppState → Nat → Nat → RppState × Nat
  | st, 0, cnt => (st, cnt)
  | st, k + 1, cnt =>
    let w := other.getD (env.pick st.pickCnt % (max other.length 1)) 0
    let st1 := { st with pickCnt := st.pickCnt + 1 }
    match check_evicts env st1 candidate w with
    | (st2, true) => uniqueness_witness_go env candidate other st2 k (cnt + 1)
    | (st2, false) => uniqueness_witness_go env candidate other st2 k cnt

/-- Uniqueness check of the spec (§ 4.2.3), comparator for claim C6: the
candidate is rejected (result false) when more than half of the 5 witness
addresses drawn from the colliding set are evicted by it. -/
def uniqueness_check_spec (env : Env) (st : RppState) (candidate other : List Nat) :
    RppState × Bool :=
  let r := uniqueness_witness_go env candidate other st 5 0
  (r.1, !decide (r.2 > 5 / 2))

/-- Parameters for the C6 run: two colors. -/
def cpC6 : CacheParams := ⟨128, 1, 1, 8192, 4⟩

/-- Environment for the C6 run: training pairs as in `envC5`; the latencies at
the `cleanup_congruent` probes (indices 9-11 and 76-77) read 100ns so pool 0
retains addresses for the second color; every other probe reads 400ns, so in
particular every eviction test that the uniqueness check would perform
reports eviction. -/
def envC6 : Env :=
  { times := fun k =>
      if k < 8 then (if k % 2 = 0 then 400 else 100)
      else if k = 9 || k = 10 || k = 11 || k = 76 || k = 77 then 100
      else 400
    pick := fun _ => 0 }

/-- A successful two-color construction run under `cpC6`/`envC6`. -/
def runC6 : RppState × Bool := rpp_build cpC6 envC6 true 3

/-- First derived sibling set of the second color of the C6 run. -/
def candidateC6 : List Nat := (runC6.1.colored_sets.getD 1 []).getD 1 []

/-- Previously accepted set of the first color with the same idx bits. -/
def otherC6 : List Nat := (runC6.1.colored_sets.getD 0 []).getD 1 []

/-- Claim C6, evaluated on the code: in this successful two-color run the
derived sibling set `[4160]` is accepted into color 1 although a previously
accepted set `[64]` of color 0 shares its idx bits (both 64) and all 5
witness draws of the spec uniqueness check report eviction, i.e. the check
would reject the candidate — `add_sets` never invokes any uniqueness check
(`Rpp::is_unique` has no caller), so the candidate is appended regardless. -/
theorem add_sets_without_uniqueness_check :
    runC6.2 = true ∧
    runC6.1.colored_sets.length = 2 ∧
    candidateC6 = [4160] ∧ otherC6 = [64] ∧
    candidateC6.getD 0 0 &&& (63 <<< CTL_BIT) = otherC6.getD 0 0 &&& (63 <<< CTL_BIT) ∧
    (uniqueness_check_spec envC6 runC6.1 candidateC6 otherC6).2 = false :=
  ⟨by decide, by decide, by decide, by decide, by decide, by decide⟩

/-- Claim C7, evaluated on the code: the classifier refresh at the bottom of
the build loop is guarded by `self.addrs.len() > 500`, but `addrs` is the
vector of the 64 address pools, never the pool-0 length; the guard is false in
every reachable state, so the classifier is never retrained after the initial
training — regardless of how many addresses pool 0 holds. -/
theorem build_loop_never_retrains (P : RppParams) (env : Env) (quite : Bool) :
    ∀ (fuel : Nat) (st : RppState), st.addrs.length = 64 →
      (build_loop P env quite st fuel).1.classifier = st.classifier := by
  intro fuel
  induction fuel with
  | zero => intro st _; rfl
  | succ fuel ih =>
    intro st h64
    simp only [build_loop]
    split
    · split
      · rename_i st2 set heq
        have hbi := build_initial_stable P env st
        rw [heq] at hbi
        have h64s2 : st2.addrs.length = 64 := hbi.2.1.trans h64
        split
        · rename_i st3 hret
          have hretc := add_sets_retry_cl P env set (RETRY_CNT + 1) st2
          rw [hret] at hretc
          have h64s3 : st3.addrs.length = 64 := hretc.2.trans h64s2
          rw [refresh_step_skipped env st3 h64s3, ih st3 h64s3, hretc.1, hbi.2.2]
        · rename_i st3 hret
          have hretc := add_sets_retry_cl P env set (RETRY_CNT + 1) st2
          rw [hret] at hretc
          show st3.classifier = st.classifier
          rw [hretc.1, hbi.2.2]
      · rename_i st2 e heq
        have hbi := build_initial_stable P env st
        rw [heq] at hbi
        have h64s2 : st2.addrs.length = 64 := hbi.2.1.trans h64
        split
        · show st2.classifier = st.classifier
          exact hbi.2.2
        · rw [refresh_step_skipped env st2 h64s2, ih st2 h64s2, hbi.2.2]
    · rfl

/-- CORE_I7 parameters with a pool of 600 page-aligned addresses. -/
def cp600 : CacheParams := ⟨64, 12, 12, 6291456, 600⟩

/-- Witness for C7: from the freshly constructed state — whose pool 0 holds
600 addresses, well above 500 — the build loop still never retrains the
classifier, because the guard counts the 64 pools. -/
theorem build_loop_never_retrains_witness :
    (with_params_state cp600).addrs.length = 64 ∧
    ((with_params_state cp600).addrs.getD 0 []).length = 600 ∧
    (build_loop (rppParamsOf cp600) envC5 true (with_params_state cp600) 5).1.classifier =
      (with_params_state cp600).classifier :=
  ⟨by decide, by decide,
    build_loop_never_retrains (rppParamsOf cp600) envC5 true 5
      (with_params_state cp600) (by decide)⟩
